import Mathlib

/-!
Shallow embedding of the single-file Streamlit + CrewAI content-generation
app (`streamlit-app.py`).  Strings are modelled as `List Char`; the Python
`str.split(sep, 1)` call and the surrounding `try/except ValueError` block
of the Start-button handler are modelled as executable Lean functions.
-/

set_option maxRecDepth 8192

namespace ContentApp

/-- The literal marker the button handler splits the crew result on. -/
def marker : List Char := "BLOG POST:".data

/-- Locate the first occurrence of `sep` in a string, returning the text
strictly before it and strictly after it, or `none` when `sep` does not
occur.  This is the search underlying Python `str.split(sep, 1)`. -/
def splitOnce (sep : List Char) : List Char → Option (List Char × List Char)
  | [] => if sep.isEmpty then some ([], []) else none
  | c :: cs =>
    if sep.isPrefixOf (c :: cs) then
      some ([], (c :: cs).drop sep.length)
    else
      match splitOnce sep cs with
      | some (pre, post) => some (c :: pre, post)
      | none => none

/-- Python `s.split(sep, 1)`: a list with two elements when `sep` occurs,
and the one-element list `[s]` when it does not. -/
def str_split1 (sep s : List Char) : List (List Char) :=
  match splitOnce sep s with
  | some (a, b) => [a, b]
  | none => [s]

/-- Tuple-unpacking of a list into two variables: Python raises
`ValueError` unless the list has exactly two elements. -/
def unpack2 : List (List Char) → Except Unit (List Char × List Char)
  | [a, b] => Except.ok (a, b)
  | _ => Except.error ()

/-- The splitter block of the Start-button handler:
`try: research, blog = result.split("BLOG POST:", 1) except ValueError:
research = result; blog = ""`. -/
def split_result (result : List Char) : List Char × List Char :=
  match unpack2 (str_split1 marker result) with
  | Except.ok p => p
  | Except.error _ => (result, [])

/-- Python `sep in s`: does `sep` occur in `s` as a contiguous substring? -/
def occurs (sep : List Char) : List Char → Bool
  | [] => sep.isEmpty
  | c :: cs => sep.isPrefixOf (c :: cs) || occurs sep cs

/- ### Helper lemmas about `isPrefixOf`, `occurs` and `splitOnce` -/

theorem isPrefixOf_eq_append :
    ∀ p l : List Char, p.isPrefixOf l = true → p ++ l.drop p.length = l := by
  intro p
  induction p with
  | nil => intro l _; simp
  | cons a p ih =>
    intro l h
    cases l with
    | nil => simp [List.isPrefixOf] at h
    | cons b l =>
      simp only [List.isPrefixOf, Bool.and_eq_true, beq_iff_eq] at h
      obtain ⟨rfl, h2⟩ := h
      simpa using ih l h2

theorem isPrefixOf_append_self (p t : List Char) :
    p.isPrefixOf (p ++ t) = true := by
  induction p with
  | nil => simp [List.isPrefixOf]
  | cons a p ih => simp [List.isPrefixOf, ih]

theorem isPrefixOf_of_append (p l t : List Char)
    (h : p.isPrefixOf l = true) : p.isPrefixOf (l ++ t) = true := by
  induction p generalizing l with
  | nil => simp [List.isPrefixOf]
  | cons a p ih =>
    cases l with
    | nil => simp [List.isPrefixOf] at h
    | cons b l =>
      simp only [List.isPrefixOf, Bool.and_eq_true, beq_iff_eq] at h ⊢
      exact ⟨h.1, ih l h.2⟩

theorem occurs_of_isPrefixOf (sep s : List Char)
    (h : sep.isPrefixOf s = true) : occurs sep s = true := by
  cases s with
  | nil =>
    cases sep with
    | nil => simp [occurs]
    | cons a t => simp [List.isPrefixOf] at h
  | cons c cs => simp [occurs, h]

theorem occurs_append (sep pre rest : List Char)
    (h : sep.isPrefixOf rest = true) : occurs sep (pre ++ rest) = true := by
  induction pre with
  | nil => simpa using occurs_of_isPrefixOf sep rest h
  | cons a pre ih => simp [occurs, ih]

theorem splitOnce_sound (sep : List Char) :
    ∀ s a b : List Char, splitOnce sep s = some (a, b) → a ++ sep ++ b = s := by
  intro s
  induction s with
  | nil =>
    intro a b h
    simp only [splitOnce] at h
    split at h
    · next hs =>
      obtain ⟨rfl, rfl⟩ := Prod.mk.injEq .. ▸ Option.some.injEq .. ▸ h
      simp_all [List.isEmpty_iff]
    · exact absurd h (by simp)
  | cons c cs ih =>
    intro a b h
    simp only [splitOnce] at h
    split at h
    · next hp =>
      obtain ⟨rfl, rfl⟩ := Prod.mk.injEq .. ▸ Option.some.injEq .. ▸ h
      simpa using isPrefixOf_eq_append sep (c :: cs) hp
    · next hp =>
      cases hrec : splitOnce sep cs with
      | none => rw [hrec] at h; exact absurd h (by simp)
      | some p =>
        obtain ⟨a1, b1⟩ := p
        rw [hrec] at h
        obtain ⟨rfl, rfl⟩ := Prod.mk.injEq .. ▸ Option.some.injEq .. ▸ h
        have hs := ih a1 b1 hrec
        simp [← hs]

theorem splitOnce_none_iff (sep : List Char) :
    ∀ s : List Char, splitOnce sep s = none ↔ occurs sep s = false := by
  intro s
  induction s with
  | nil =>
    simp only [splitOnce, occurs]
    split
    · next hs => simp [hs]
    · next hs => simp [List.isEmpty_iff] at hs ⊢; simpa [List.isEmpty_iff]
  | cons c cs ih =>
    simp only [splitOnce, occurs]
    split
    · next hp => simp [hp]
    · next hp =>
      cases hrec : splitOnce sep cs with
      | none => simp [hp, (ih.mp hrec)]
      | some p =>
        have : occurs sep cs = true := by
          by_contra hcon
          have hfalse : occurs sep cs = false := by simpa using hcon
          rw [ih.mpr hfalse] at hrec
          exact absurd hrec (by simp)
        simp [hp, this]

theorem splitOnce_fst_clean (sep : List Char) (hsep : sep ≠ []) :
    ∀ s a b : List Char, splitOnce sep s = some (a, b) → occurs sep a = false := by
  intro s
  induction s with
  | nil =>
    intro a b h
    simp only [splitOnce] at h
    rw [if_neg (by simpa [List.isEmpty_iff] using hsep)] at h
    exact absurd h (by simp)
  | cons c cs ih =>
    intro a b h
    simp only [splitOnce] at h
    split at h
    · next hp =>
      obtain ⟨rfl, rfl⟩ := Prod.mk.injEq .. ▸ Option.some.injEq .. ▸ h
      cases sep with
      | nil => exact absurd rfl hsep
      | cons d t => simp [occurs]
    · next hp =>
      cases hrec : splitOnce sep cs with
      | none => rw [hrec] at h; exact absurd h (by simp)
      | some p =>
        obtain ⟨a1, b1⟩ := p
        rw [hrec] at h
        obtain ⟨rfl, rfl⟩ := Prod.mk.injEq .. ▸ Option.some.injEq .. ▸ h
        have htail : occurs sep a1 = false := ih a1 b1 hrec
        have hdecomp := splitOnce_sound sep cs a1 b1 hrec
        have hhead : sep.isPrefixOf (c :: a1) = false := by
          by_contra hcon
          have hpre : sep.isPrefixOf ((c :: a1) ++ (sep ++ b1)) = true :=
            isPrefixOf_of_append sep (c :: a1) (sep ++ b1)
              (Bool.not_eq_false _ ▸ hcon)
          have : (c :: a1) ++ (sep ++ b1) = c :: cs := by
            simp [← hdecomp]
          rw [this] at hpre
          exact absurd hpre (by simp [hp])
        simp [occurs, hhead, htail]

theorem splitOnce_first (sep : List Char) (hsep : sep ≠ []) :
    ∀ pre post : List Char,
      (∀ i, i < pre.length →
        sep.isPrefixOf ((pre ++ sep ++ post).drop i) = false) →
      splitOnce sep (pre ++ sep ++ post) = some (pre, post) := by
  intro pre
  induction pre with
  | nil =>
    intro post _
    cases hs : sep with
    | nil => exact absurd hs hsep
    | cons d t =>
      rw [← hs]
      have hcons : sep ++ post = d :: (t ++ post) := by simp [hs]
      simp only [List.nil_append, hcons]
      rw [← hcons]
      have hp : sep.isPrefixOf (sep ++ post) = true := isPrefixOf_append_self sep post
      have hunfold : splitOnce sep (d :: (t ++ post)) =
          if sep.isPrefixOf (d :: (t ++ post)) then
            some ([], (d :: (t ++ post)).drop sep.length)
          else
            match splitOnce sep (t ++ post) with
            | some (a, b) => some (d :: a, b)
            | none => none := rfl
      rw [hcons, hunfold, if_pos (hcons ▸ hp), ← hcons]
      have : (sep ++ post).drop sep.length = post := by
        simp [List.drop_left]
      rw [this]
  | cons a pre ih =>
    intro post h
    have h0 : sep.isPrefixOf (a :: (pre ++ sep ++ post)) = false := by
      have := h 0 (by simp)
      simpa using this
    have hrest : ∀ i, i < pre.length →
        sep.isPrefixOf ((pre ++ sep ++ post).drop i) = false := by
      intro i hi
      have := h (i + 1) (by simpa using Nat.succ_lt_succ hi)
      simpa using this
    have hrec := ih post hrest
    have hunfold : splitOnce sep (a :: (pre ++ sep ++ post)) =
        if sep.isPrefixOf (a :: (pre ++ sep ++ post)) then
          some ([], (a :: (pre ++ sep ++ post)).drop sep.length)
        else
          match splitOnce sep (pre ++ sep ++ post) with
          | some (p, q) => some (a :: p, q)
          | none => none := rfl
    have hgoal : (a :: pre) ++ sep ++ post = a :: (pre ++ sep ++ post) := by simp
    have hneg : ¬ (sep.isPrefixOf (a :: (pre ++ sep ++ post)) = true) := by
      rw [h0]; exact Bool.false_ne_true
    rw [hgoal, hunfold, if_neg hneg, hrec]

theorem marker_ne_nil : marker ≠ [] := by decide

/- ### Claims about the result splitter -/

/-- C1: For every input string in which the marker "BLOG POST:" occurs at
least once — written `pre ++ marker ++ post` where no occurrence of the
marker starts before position `pre.length`, so the displayed occurrence is
the first — the result splitter returns the pair of the text strictly
before the first occurrence and the text strictly after it; later
occurrences of the marker are left intact inside the second component. -/
theorem c1_split_at_first_marker (pre post : List Char)
    (h : ∀ i, i < pre.length →
      marker.isPrefixOf ((pre ++ marker ++ post).drop i) = false) :
    split_result (pre ++ marker ++ post) = (pre, post) := by
  have hs := splitOnce_first marker marker_ne_nil pre post h
  rw [List.append_assoc] at hs
  simp [split_result, str_split1, hs, unpack2]

/-- Witness for C1 at the spec's multi-marker example:
`split("X BLOG POST: Y BLOG POST: Z") = ("X ", " Y BLOG POST: Z")`. -/
theorem c1_split_at_first_marker_witness :
    (∀ i, i < ("X ".data : List Char).length →
      marker.isPrefixOf (("X ".data ++ marker ++ " Y BLOG POST: Z".data).drop i)
        = false) ∧
    split_result ("X ".data ++ marker ++ " Y BLOG POST: Z".data)
      = ("X ".data, " Y BLOG POST: Z".data) :=
  ⟨by decide, c1_split_at_first_marker "X ".data " Y BLOG POST: Z".data (by decide)⟩

/-- C2: For every input string in which the marker "BLOG POST:" does not
occur, the splitter returns the entire input paired with the empty string;
the `ValueError` is caught, so this case yields a value, not an error. -/
theorem c2_split_no_marker (s : List Char) (h : occurs marker s = false) :
    split_result s = (s, []) := by
  have hnone : splitOnce marker s = none := (splitOnce_none_iff marker s).mpr h
  simp [split_result, str_split1, hnone, unpack2]

/-- Witness for C2 at the spec's example `split("no marker here")`. -/
theorem c2_split_no_marker_witness :
    occurs marker "no marker here".data = false ∧
    split_result "no marker here".data = ("no marker here".data, []) :=
  ⟨by decide, c2_split_no_marker "no marker here".data (by decide)⟩

/-- C3: The splitter is total: for every input string (the empty string
included) the unpacking of `result.split("BLOG POST:", 1)` either succeeds
and its value is returned, or raises exactly the `ValueError` that the
handler catches, in which case the pair `(s, "")` is returned; in both
cases `split_result` produces a pair and no exception escapes. -/
theorem c3_split_total (s : List Char) :
    unpack2 (str_split1 marker s) = Except.ok (split_result s) ∨
    (unpack2 (str_split1 marker s) = Except.error () ∧
      split_result s = (s, [])) := by
  cases h : splitOnce marker s with
  | none =>
    right
    constructor <;> simp [split_result, str_split1, h, unpack2]
  | some p =>
    obtain ⟨a, b⟩ := p
    left
    simp [split_result, str_split1, h, unpack2]

/-- C9: Reconstruction invariant: for every input string `s`, either the
marker occurs in `s` and `research ++ marker ++ blog = s` exactly, or the
marker does not occur and `research = s` with `blog` empty. -/
theorem c9_split_reconstruction (s : List Char) :
    (occurs marker s = true ∧
      (split_result s).1 ++ marker ++ (split_result s).2 = s) ∨
    (occurs marker s = false ∧
      (split_result s).1 = s ∧ (split_result s).2 = []) := by
  cases h : splitOnce marker s with
  | none =>
    right
    refine ⟨(splitOnce_none_iff marker s).mp h, ?_, ?_⟩ <;>
      simp [split_result, str_split1, h, unpack2]
  | some p =>
    obtain ⟨a, b⟩ := p
    left
    have hocc : occurs marker s = true := by
      by_contra hcon
      have hfalse : occurs marker s = false := by simpa using hcon
      rw [(splitOnce_none_iff marker s).mpr hfalse] at h
      exact absurd h (by simp)
    have hsound := splitOnce_sound marker s a b h
    refine ⟨hocc, ?_⟩
    simpa [split_result, str_split1, h, unpack2] using hsound

/-- C10: For every input string, the research section returned by the
splitter never contains the marker "BLOG POST:" as a substring. -/
theorem c10_research_section_no_marker (s : List Char) :
    occurs marker (split_result s).1 = false := by
  cases h : splitOnce marker s with
  | none =>
    have hfalse := (splitOnce_none_iff marker s).mp h
    simpa [split_result, str_split1, h, unpack2] using hfalse
  | some p =>
    obtain ⟨a, b⟩ := p
    have hclean := splitOnce_fst_clean marker marker_ne_nil s a b h
    simpa [split_result, str_split1, h, unpack2] using hclean

/- ### Embedding of `create_agents_and_tasks` and the crew construction -/

structure LLM where
  model : List Char

structure SerperDevTool where
  n : Nat

structure Agent where
  role : List Char
  goal : List Char
  backstory : List Char
  allow_delegation : Bool
  verbose : Bool
  tools : List SerperDevTool
  llm : LLM

structure Task where
  description : List Char
  expected_output : List Char
  agent : Agent

structure Crew where
  agents : List Agent
  tasks : List Task
  verbose : Bool

def llm : LLM := { model := "gpt-4".data }

def search_tool : SerperDevTool := { n := 5 }

def senior_research_analyst : Agent :=
  { role := "Senior Research Analyst".data,
    goal := "Research, analyze and synthesize".data,
    backstory := "Expert researcher with years of experience in analyzing industry trends".data,
    allow_delegation := false,
    verbose := true,
    tools := [search_tool],
    llm := llm }

def content_writer : Agent :=
  { role := "Content Writer".data,
    goal := "Transform research findings into engaging blog post while maintaining accuracy".data,
    backstory := "Experienced content writer specializing in technical and industry analysis".data,
    allow_delegation := false,
    verbose := true,
    tools := [],
    llm := llm }

/-- The f-string description of the research task, parameterized by the
topic exactly as in the source. -/
def research_description (topic : List Char) : List Char :=
  "1. Conduct comprehensive research on ".data ++ topic ++
    " including:\n            - Recent developments and news\n            - Key industry trends and innovations\n            - Expert opinions and analyses\n            - Statistical data and market insights\n            2. Evaluate source credibility and fact-check all information\n            3. Organize findings into a structured research brief\n            4. Include all relevant citations and sources".data

def research_expected_output : List Char :=
  "A detailed research report containing:\n            - Executive summary of key findings\n            - Comprehensive analysis of current trends and developments\n            - List of verified facts and statistics\n            - All citations and links to original sources\n            - Clear categorization of main themes and patterns".data

/-- The fixed (topic-independent) description of the writing task. -/
def writing_description : List Char :=
  "Using the research brief provided, create an engaging blog post that:\n            1. Transforms technical information into accessible content\n            2. Maintains all factual accuracy and citations from the research\n            3. Includes:\n                - Attention-grabbing introduction\n                - Well-structured body sections with clear headings\n                - Compelling conclusion\n            4. Preserves all source citations in [Source: URL] format\n            5. Includes a References section at the end".data

def writing_expected_output : List Char :=
  "A polished blog post in markdown format that:\n            - Engages readers while maintaining accuracy\n            - Contains properly structured sections\n            - Includes inline citations hyperlinked to the original source URL\n            - Presents information in an accessible yet informative way\n            - Follows proper markdown formatting".data

def research_task (topic : List Char) : Task :=
  { description := research_description topic,
    expected_output := research_expected_output,
    agent := senior_research_analyst }

def writing_task : Task :=
  { description := writing_description,
    expected_output := writing_expected_output,
    agent := content_writer }

/-- `create_agents_and_tasks(topic)` from the source: returns the two
agents and the two tasks. -/
def create_agents_and_tasks (topic : List Char) :
    Agent × Agent × Task × Task :=
  (senior_research_analyst, content_writer, research_task topic, writing_task)

/-- The `Crew(...)` built inside `run_crew` from the values returned by
`create_agents_and_tasks`. -/
def crew_of (topic : List Char) : Crew :=
  { agents := [(create_agents_and_tasks topic).1,
               (create_agents_and_tasks topic).2.1],
    tasks := [(create_agents_and_tasks topic).2.2.1,
              (create_agents_and_tasks topic).2.2.2],
    verbose := true }

theorem research_description_ne_nil (topic : List Char) :
    research_description topic ≠ [] := by
  intro hc
  simp only [research_description] at hc
  rcases List.append_eq_nil.mp hc with ⟨h1, h2⟩
  rcases List.append_eq_nil.mp h1 with ⟨h3, h4⟩
  exact absurd h3 (by decide)

theorem topic_in_research_description (topic : List Char) :
    occurs topic (research_description topic) = true := by
  simp only [research_description, List.append_assoc]
  exact occurs_append topic _ _ (isPrefixOf_append_self topic _)

/-- C4: For every non-empty topic string, the configuration step produces
exactly two task descriptors, both with non-empty description fields; the
research task's description contains the topic verbatim as a substring,
and the writing task does not depend on the topic. -/
theorem c4_configure_two_tasks (topic : List Char) (_h : topic ≠ []) :
    (crew_of topic).tasks.length = 2 ∧
    (create_agents_and_tasks topic).2.2.1.description ≠ [] ∧
    (create_agents_and_tasks topic).2.2.2.description ≠ [] ∧
    occurs topic ((create_agents_and_tasks topic).2.2.1.description) = true ∧
    (∀ t : List Char,
      (create_agents_and_tasks t).2.2.2 = (create_agents_and_tasks topic).2.2.2) := by
  refine ⟨rfl, research_description_ne_nil topic, ?_,
    topic_in_research_description topic, fun _ => rfl⟩
  show writing_task.description ≠ []
  decide

/-- Witness for C4 at the concrete topic "AI". -/
theorem c4_configure_two_tasks_witness :
    ("AI".data : List Char) ≠ [] ∧
    ((crew_of "AI".data).tasks.length = 2 ∧
    (create_agents_and_tasks "AI".data).2.2.1.description ≠ [] ∧
    (create_agents_and_tasks "AI".data).2.2.2.description ≠ [] ∧
    occurs "AI".data ((create_agents_and_tasks "AI".data).2.2.1.description) = true ∧
    (∀ t : List Char,
      (create_agents_and_tasks t).2.2.2 = (create_agents_and_tasks "AI".data).2.2.2)) :=
  ⟨by decide, c4_configure_two_tasks "AI".data (by decide)⟩

/-- C7: For every topic string, the search tool is attached only to the
research agent (the writer agent has no tools), both agents have
delegation disabled and verbosity enabled, and the search tool's result
budget is the constant `n = 5` fixed at configuration time. -/
theorem c7_agent_configuration (topic : List Char) :
    (create_agents_and_tasks topic).1.tools = [search_tool] ∧
    search_tool.n = 5 ∧
    (create_agents_and_tasks topic).2.1.tools = [] ∧
    (create_agents_and_tasks topic).1.allow_delegation = false ∧
    (create_agents_and_tasks topic).2.1.allow_delegation = false ∧
    (create_agents_and_tasks topic).1.verbose = true ∧
    (create_agents_and_tasks topic).2.1.verbose = true :=
  ⟨rfl, rfl, rfl, rfl, rfl, rfl, rfl⟩

/- ### Embedding of the Start-button handler and the sidebar -/

/-- What the Start-button handler renders at the end of a run. -/
inductive UIOutcome where
  | errorMsg (msg : List Char)
  | results (research blog : List Char)

/-- The Start-button handler.  `kickoff` stands for `run_crew` /
`crew.kickoff`, the opaque external orchestration call, which either
raises (modelled as `Except.error`) or returns the combined result text.
The second component of the returned pair counts how many times `kickoff`
was invoked.  Mirrors the source: if either key is empty (Python falsy),
an error is shown and nothing is called; otherwise the call is made once
inside `try`, any exception is rendered as a generic error message, and a
successful result is split and rendered in the two tabs. -/
def start_button_handler (api_key serper_api_key topic : List Char)
    (kickoff : List Char → Except (List Char) (List Char)) :
    UIOutcome × Nat :=
  if api_key = [] ∨ serper_api_key = [] then
    (UIOutcome.errorMsg "Please enter both API keys in the sidebar first!".data, 0)
  else
    match kickoff topic with
    | Except.error e =>
        (UIOutcome.errorMsg ("An error occurred: ".data ++ e), 1)
    | Except.ok result =>
        (UIOutcome.results (split_result result).1 (split_result result).2, 1)

/-- C5: If either credential string is empty when the action button is
pressed, the orchestration call is never invoked (invocation count zero)
and a blocking user-facing error message is shown instead. -/
theorem c5_missing_credentials_block (api_key serper_api_key topic : List Char)
    (kickoff : List Char → Except (List Char) (List Char))
    (h : api_key = [] ∨ serper_api_key = []) :
    (start_button_handler api_key serper_api_key topic kickoff).2 = 0 ∧
    (start_button_handler api_key serper_api_key topic kickoff).1 =
      UIOutcome.errorMsg "Please enter both API keys in the sidebar first!".data := by
  rw [start_button_handler, if_pos h]
  exact ⟨rfl, rfl⟩

/-- Witness for C5: empty model-provider key, non-empty search key. -/
theorem c5_missing_credentials_block_witness :
    (([] : List Char) = [] ∨ "sk".data = ([] : List Char)) ∧
    ((start_button_handler [] "sk".data "topic".data
        (fun _ => Except.ok [])).2 = 0 ∧
    (start_button_handler [] "sk".data "topic".data
        (fun _ => Except.ok [])).1 =
      UIOutcome.errorMsg "Please enter both API keys in the sidebar first!".data) :=
  ⟨Or.inl rfl,
    c5_missing_credentials_block [] "sk".data "topic".data
      (fun _ => Except.ok []) (Or.inl rfl)⟩

/-- C6: Every exception raised by the orchestration call is caught at the
top level of the button handler and rendered as a generic user-facing
error message; the handler still returns a value (no crash), the call is
made exactly once (no retry), and no result pane is rendered. -/
theorem c6_kickoff_failure_caught (api_key serper_api_key topic e : List Char)
    (kickoff : List Char → Except (List Char) (List Char))
    (hak : api_key ≠ []) (hsk : serper_api_key ≠ [])
    (hfail : kickoff topic = Except.error e) :
    (start_button_handler api_key serper_api_key topic kickoff).1 =
      UIOutcome.errorMsg ("An error occurred: ".data ++ e) ∧
    (start_button_handler api_key serper_api_key topic kickoff).2 = 1 := by
  have hcond : ¬ (api_key = [] ∨ serper_api_key = []) := by
    rintro (hc | hc)
    · exact hak hc
    · exact hsk hc
  rw [start_button_handler, if_neg hcond, hfail]
  exact ⟨rfl, rfl⟩

/-- Witness for C6: a stub orchestration call that always raises. -/
theorem c6_kickoff_failure_caught_witness :
    ("ak".data : List Char) ≠ [] ∧ ("sk".data : List Char) ≠ [] ∧
    (fun _ : List Char => Except.error "boom".data) "topic".data =
      (Except.error "boom".data : Except (List Char) (List Char)) ∧
    ((start_button_handler "ak".data "sk".data "topic".data
        (fun _ => Except.error "boom".data)).1 =
      UIOutcome.errorMsg ("An error occurred: ".data ++ "boom".data) ∧
    (start_button_handler "ak".data "sk".data "topic".data
        (fun _ => Except.error "boom".data)).2 = 1) :=
  ⟨by decide, by decide, rfl,
    c6_kickoff_failure_caught "ak".data "sk".data "topic".data "boom".data
      (fun _ => Except.error "boom".data) (by decide) (by decide) rfl⟩

/-- The two process-wide environment variables the sidebar writes. -/
structure Env where
  openai_api_key : Option (List Char)
  serper_api_key : Option (List Char)

/-- The sidebar's credential handling: `if api_key:
os.environ["OPENAI_API_KEY"] = api_key` and likewise for the SerperDev
key.  A Python string is truthy exactly when it is non-empty, so an empty
entry leaves the environment untouched. -/
def sidebar_update (api_key serper_api_key : List Char) (env : Env) : Env :=
  let env1 := if api_key ≠ [] then
    { env with openai_api_key := some api_key } else env
  if serper_api_key ≠ [] then
    { env1 with serper_api_key := some serper_api_key } else env1

/-- C8 counterexample: an empty entry for the model-provider key does NOT
replace a previously set environment value, contradicting the claim that
every entry, including an empty one, overwrites it. -/
theorem c8_empty_entry_not_overwritten :
    ¬ ((sidebar_update [] "sk".data
        { openai_api_key := some "old".data,
          serper_api_key := none }).openai_api_key = some []) := by
  decide

/-- C8 (amended): entering a non-empty credential string overwrites the
corresponding environment variable with exactly the entered value,
regardless of its previous contents (overwrite, not merge); an empty
entry leaves the previous environment value unchanged. -/
theorem c8_env_overwrite (api_key serper_api_key : List Char) (env : Env) :
    (sidebar_update api_key serper_api_key env).openai_api_key =
      (if api_key = [] then env.openai_api_key else some api_key) ∧
    (sidebar_update api_key serper_api_key env).serper_api_key =
      (if serper_api_key = [] then env.serper_api_key else some serper_api_key) := by
  by_cases hak : api_key = [] <;> by_cases hsk : serper_api_key = [] <;>
    simp [sidebar_update, hak, hsk]

end ContentApp
